import Mathlib

/-!
Verification of the HinteDI dependency injector

A shallow embedding of `src/hintedi/hinted_dependency_injector.py`.

Modelling notes:
* Python classes used as dependency identities are modelled as `String` names
  (identities are only compared for equality in the source).
* The class-wide `HinteDI.dependencies` dict is modelled as an insertion-ordered
  association list `List (String × Record)`; Python dicts preserve insertion
  order, updates keep position and new keys are appended.
* Python objects are modelled by a fresh natural-number reference drawn from a
  counter, together with the name of their class.  The dynamic attribute
  attachment `dependency.resolve_from_key = ...` is modelled as a heap
  `rfk : List (Nat × String)` mapping an object reference to the abstract base
  the attached resolver is bound to; `hasattr(x, "resolve_from_key")` is true
  iff the class statically has the attribute or the heap has an entry.
* Raised exceptions become error values.  Failures that Python would surface as
  host-level exceptions rather than `InjectionException` (KeyError from a plain
  dict index, TypeError from subscripting a non-dict, AttributeError from
  `x.__name__` on a string) are modelled by dedicated error values.
* The environment `Env` carries the static facts about user classes: whether
  the class itself defines a `resolve_from_key` attribute, whether its
  constructor raises (and with what message), and its `str()` form used by the
  string-annotation fallback of `_is_dependency_present`.
* The mutual recursion `_get_dependency` / `_get_default_abstract_dependency`
  is bounded by explicit fuel, since in unreachable registry states the Python
  code could recurse unboundedly.
-/

set_option autoImplicit false

deriving instance DecidableEq for Except

namespace HinteDI

/-- Association-list lookup with decidable key equality; Python `d[k]` / `k in d`. -/
def lookupA {α β : Type} [DecidableEq α] : List (α × β) → α → Option β
  | [], _ => none
  | (k, v) :: rest, a => if a = k then some v else lookupA rest a

/-- Association-list update; Python `d[k] = v` (replace in place, else append). -/
def setA {α β : Type} [DecidableEq α] : List (α × β) → α → β → List (α × β)
  | [], a, b => [(a, b)]
  | (k, v) :: rest, a, b => if a = k then (a, b) :: rest else (k, v) :: setA rest a b

/-- A key of an abstract base's implementation dict: a user-supplied key
(modelled as a string) or the reserved `HinteDI.default_implementation`
sentinel. -/
inductive MKey where
  | user (k : String)
  | sentinel
deriving DecidableEq, Repr

/-- A value of an abstract base's implementation dict: a concrete
implementation class, or the seeded `ImplementationFactory` bound to a base. -/
inductive Entry where
  | impl (c : String)
  | factoryE (base : String)
deriving DecidableEq, Repr

/-- A registration record in `HinteDI.dependencies`: `None` or an initialized
singleton instance for singletons, an `InstanceSentinel` for instance
dependencies, or the key-implementation dict for abstract bases. -/
inductive Record where
  | singleton (cached : Option Nat)
  | instSentinel
  | abstract (table : List (MKey × Entry))
deriving DecidableEq, Repr

/-- The mutable state of the injector: the dependencies dict, the attribute
heap for dynamically attached `resolve_from_key` resolvers, and the fresh
object-reference counter. -/
structure DIState where
  deps : List (String × Record)
  rfk : List (Nat × String)
  nextRef : Nat
deriving DecidableEq, Repr

def emptyState : DIState := ⟨[], [], 0⟩

/-- A resolved value: a Python object (reference plus class name) or an
`ImplementationFactory` bound to a base. -/
inductive Value where
  | obj (ref : Nat) (cls : String)
  | factory (base : String)
deriving DecidableEq, Repr

/-- Failures.  The first block are the `InjectionException` causes of the
source; `userError` is an exception escaping a user constructor; the `host*`
errors are Python-level KeyError/TypeError/AttributeError that the source does
not catch; `fuelOut` marks recursion-fuel exhaustion of the embedding. -/
inductive DIError where
  | duplicateRegistration (c : String)
  | unregisteredBase (base impl : String)
  | duplicateDefault (base impl existing : String)
  | duplicateKey (base impl key existing : String)
  | reservedConflict (base impl : String)
  | noImplementations (base : String)
  | unresolvableKey (key base : String)
  | unresolvedDependency (argName ty : String)
  | missingTypeHint (argName : String)
  | userError (msg : String)
  | hostTypeError
  | hostKeyError
  | hostAttributeError
  | fuelOut
deriving DecidableEq, Repr

/-- Static facts about the user classes mentioned in a scenario. -/
structure Env where
  classHasRFK : String → Bool
  ctor : String → Option String
  strForm : String → String

/-- Lifecycle kind of a concrete implementation:
`HinteDI.singleton_implementation` vs `HinteDI.instance_implementation`. -/
inductive Life where
  | single
  | fresh
deriving DecidableEq, Repr

/-- The standalone record an implementation class is registered under
(`None` for singletons, `InstanceSentinel()` for instance dependencies). -/
def lifeRecord : Life → Record
  | .single => .singleton none
  | .fresh => .instSentinel

/-- `HinteDI._add_dependency`. -/
def addDependency (c : String) (r : Record) (st : DIState) : Option DIError × DIState :=
  if (lookupA st.deps c).isSome then (some (.duplicateRegistration c), st)
  else (none, { st with deps := st.deps ++ [(c, r)] })

/-- `HinteDI.singleton`. -/
def registerSingleton (c : String) (st : DIState) : Option DIError × DIState :=
  addDependency c (.singleton none) st

/-- `HinteDI.instance`. -/
def registerInstance (c : String) (st : DIState) : Option DIError × DIState :=
  addDependency c .instSentinel st

/-- `HinteDI.abstract_base`: seed the implementation dict with the factory
under the reserved sentinel, then register. -/
def registerAbstractBase (c : String) (st : DIState) : Option DIError × DIState :=
  addDependency c (.abstract [(MKey.sentinel, .factoryE c)]) st

/-- First check of `HinteDI._create_key`: a default may only be created while
the sentinel entry still holds the seeded factory. -/
def checkDefaultClash (tbl : List (MKey × Entry)) (base depClass : String)
    (isDefault : Bool) : Option DIError :=
  if isDefault then
    match lookupA tbl .sentinel with
    | none => some .hostKeyError
    | some (.impl d) => some (.duplicateDefault base depClass d)
    | some (.factoryE _) => none
  else none

/-- Second check of `HinteDI._create_key`: the key must be free.  (The error
message reads `existing.__name__`; on the factory object that would be a host
AttributeError, though that entry only ever sits under the sentinel.) -/
def checkKeyClash (tbl : List (MKey × Entry)) (base key depClass : String) : Option DIError :=
  match lookupA tbl (.user key) with
  | some (.impl d) => some (.duplicateKey base depClass key d)
  | some (.factoryE _) => some .hostAttributeError
  | none => none

/-- `HinteDI._create_key`.  When the base's record is not a dict the Python
code fails with TypeError while subscripting it; when the base is absent the
index raises KeyError (unreachable behind `_assert_base_present`). -/
def createKey (env : Env) (base key depClass : String) (isDefault : Bool)
    (st : DIState) : Option DIError × DIState :=
  match lookupA st.deps base with
  | none => (some .hostKeyError, st)
  | some (.singleton _) => (some .hostTypeError, st)
  | some .instSentinel => (some .hostTypeError, st)
  | some (.abstract tbl) =>
    match checkDefaultClash tbl base depClass isDefault with
    | some e => (some e, st)
    | none =>
      match checkKeyClash tbl base key depClass with
      | some e => (some e, st)
      | none =>
        if isDefault && env.classHasRFK depClass then
          (some (.reservedConflict base depClass), st)
        else
          let tbl1 := setA tbl (.user key) (.impl depClass)
          let tbl2 := if isDefault then setA tbl1 .sentinel (.impl depClass) else tbl1
          (none, { st with deps := setA st.deps base (.abstract tbl2) })

/-- `HinteDI._create_implementation` (the body shared by
`singleton_implementation` and `instance_implementation`):
`_assert_base_present`, then `_create_key`, then `_add_dependency` for the
implementation class itself. -/
def createImplementation (env : Env) (base key depClass : String) (isDefault : Bool)
    (life : Life) (st : DIState) : Option DIError × DIState :=
  if (lookupA st.deps base).isNone then (some (.unregisteredBase base depClass), st)
  else
    match createKey env base key depClass isDefault st with
    | (some e, st') => (some e, st')
    | (none, st') => addDependency depClass (lifeRecord life) st'

/-- Python's `str.split(sep)` for a one-character separator, on the
character list (`"".split(".") = [""]`, separators at the ends produce empty
segments). -/
def splitOnChar (c : Char) : List Char → List (List Char)
  | [] => [[]]
  | x :: xs =>
    match splitOnChar c xs with
    | [] => if x = c then [[], []] else [[x]]
    | h :: t => if x = c then [] :: h :: t else (x :: h) :: t

/-- `str(dependency).split(".")[-1][:-2]`: the simplified trailing name
segment used by the string-annotation fallback (`[:-2]` drops the final two
characters). -/
def simpleName (env : Env) (d : String) : String :=
  String.mk (((splitOnChar '.' (env.strForm d).toList).getLastD []).dropLast.dropLast)

/-- A requested identity as it arrives at `_is_dependency_present`: a live
type, or the string form produced for nested-class annotations. -/
inductive Ann where
  | ty (i : String)
  | str (s : String)
deriving DecidableEq, Repr

/-- One comparison of the fallback loop of `_is_dependency_present`.  A live
type compares unequal to both strings; a string annotation matches the
simplified trailing segment or the full `str()` form. -/
def annMatches (env : Env) (a : Ann) (d : String) : Bool :=
  match a with
  | .ty _ => false
  | .str s => s == simpleName env d || s == env.strForm d

/-- The fallback loop of `_is_dependency_present`, in dict insertion order. -/
def findFallback (env : Env) : List (String × Record) → Ann → Option String
  | [], _ => none
  | (d, _) :: rest, a => if annMatches env a d then some d else findFallback env rest a

/-- `HinteDI._is_dependency_present`: direct membership first (only a live
type can be a dict key), then the string-comparison fallback loop. -/
def isDependencyPresent (env : Env) (deps : List (String × Record)) (a : Ann) : Option String :=
  match a with
  | .ty i => if (lookupA deps i).isSome then some i else findFallback env deps (.ty i)
  | .str s => findFallback env deps (.str s)

/-- `hasattr(value, "resolve_from_key")`: an `ImplementationFactory` has the
method; an object has it when its class defines it or it was attached. -/
def valueHasRFK (env : Env) (st : DIState) : Value → Bool
  | .obj r c => env.classHasRFK c || (lookupA st.rfk r).isSome
  | .factory _ => true

/-- A pending resolution request: `_get_dependency annotation`,
`_get_default_abstract_dependency base key`, or the tail of the latter after
the effective entry has been selected. -/
inductive Req where
  | ident (i : String)
  | defaultOf (base : String) (key : String)
  | entryOf (base : String) (e : Entry)
deriving DecidableEq, Repr

/-- The mutually recursive resolution core, fuelled.

* `.ident i` is `HinteDI._get_dependency(i)`: instance dependencies construct
  a fresh object, abstract bases defer to the default-resolution algorithm,
  uninitialized singletons construct and cache, initialized singletons return
  the cached object.
* `.defaultOf base key` is `HinteDI._get_default_abstract_dependency`:
  `_assert_implemented` (dict of length 1 has no implementations), then
  `_assert_valid_key_or_default` (the given key when present, else the
  reserved sentinel), then the selected entry is processed.
* `.entryOf base e` is the tail of `_get_default_abstract_dependency`: a
  factory entry is returned as is; a class entry is renormalized through
  `_is_dependency_present`, resolved through `_get_dependency`, and unless the
  value already has `resolve_from_key` the resolver bound to `base` is
  attached to it. -/
def resolveCore (env : Env) : Nat → Req → DIState → Except DIError Value × DIState
  | 0, _, st => (.error .fuelOut, st)
  | fuel + 1, .ident i, st =>
    match lookupA st.deps i with
    | none => (.error .hostKeyError, st)
    | some .instSentinel =>
      match env.ctor i with
      | some msg => (.error (.userError msg), st)
      | none => (.ok (.obj st.nextRef i), { st with nextRef := st.nextRef + 1 })
    | some (.abstract _) => resolveCore env fuel (.defaultOf i "default") st
    | some (.singleton none) =>
      match env.ctor i with
      | some msg => (.error (.userError msg), st)
      | none =>
        (.ok (.obj st.nextRef i),
          { st with deps := setA st.deps i (.singleton (some st.nextRef)),
                    nextRef := st.nextRef + 1 })
    | some (.singleton (some r)) => (.ok (.obj r i), st)
  | fuel + 1, .defaultOf base key, st =>
    match lookupA st.deps base with
    | some (.abstract tbl) =>
      if tbl.length = 1 then (.error (.noImplementations base), st)
      else
        match lookupA tbl (if (lookupA tbl (.user key)).isSome then MKey.user key else .sentinel) with
        | none => (.error .hostKeyError, st)
        | some e => resolveCore env fuel (.entryOf base e) st
    | some _ => (.error .hostTypeError, st)
    | none => (.error .hostKeyError, st)
  | fuel + 1, .entryOf base e, st =>
    match e with
    | .factoryE b => (.ok (.factory b), st)
    | .impl c =>
      match isDependencyPresent env st.deps (.ty c) with
      | none => (.error .hostKeyError, st)
      | some real =>
        match resolveCore env fuel (.ident real) st with
        | (.error err, st') => (.error err, st')
        | (.ok v, st') =>
          if valueHasRFK env st' v then (.ok v, st')
          else
            match v with
            | .obj r _ => (.ok v, { st' with rfk := setA st'.rfk r base })
            | .factory _ => (.ok v, st')

/-- `HinteDI._get_dependency`. -/
def getDependency (env : Env) (fuel : Nat) (i : String) (st : DIState) :
    Except DIError Value × DIState :=
  resolveCore env fuel (.ident i) st

/-- The wrapper produced by `HinteDI._resolve_from_key(base)`: both the method
of an `ImplementationFactory` and the attached `resolve_from_key` of a
resolved default implementation.  It reads the dependencies dict at call
time. -/
def resolveFromKey (env : Env) (fuel : Nat) (base : String) (k : String)
    (st : DIState) : Except DIError Value × DIState :=
  match lookupA st.deps base with
  | some (.abstract tbl) =>
    match lookupA tbl (.user k) with
    | some (.impl c) => resolveCore env fuel (.ident c) st
    | some (.factoryE _) => (.error .hostKeyError, st)
    | none => (.error (.unresolvableKey k base), st)
  | some _ => (.error .hostTypeError, st)
  | none => (.error .hostKeyError, st)

/-- `HinteDI._inject_arg` for one parameter: missing annotations fail, a
present identity is resolved, and for an unmatched request the error message
interpolates `annotation.__name__`, which on a string annotation is itself a
host AttributeError. -/
def injectArg (env : Env) (fuel : Nat) (argName : String) (ann : Option Ann)
    (st : DIState) : Except DIError Value × DIState :=
  match ann with
  | none => (.error (.missingTypeHint argName), st)
  | some a =>
    match isDependencyPresent env st.deps a with
    | some real => resolveCore env fuel (.ident real) st
    | none =>
      match a with
      | .ty i => (.error (.unresolvedDependency argName i), st)
      | .str _ => (.error .hostAttributeError, st)

/-! ## Basic lemmas about the association-list operations -/

theorem lookupA_setA_self {α β : Type} [DecidableEq α] (l : List (α × β)) (a : α) (b : β) :
    lookupA (setA l a b) a = some b := by
  induction l with
  | nil => simp [setA, lookupA]
  | cons hd tl ih =>
    obtain ⟨k, v⟩ := hd
    by_cases h : a = k <;> simp [setA, lookupA, h, ih]

theorem lookupA_setA_ne {α β : Type} [DecidableEq α] (l : List (α × β)) {a a' : α} (b : β)
    (h : a ≠ a') : lookupA (setA l a' b) a = lookupA l a := by
  induction l with
  | nil => simp [setA, lookupA, h]
  | cons hd tl ih =>
    obtain ⟨k, v⟩ := hd
    by_cases h2 : a' = k
    · subst h2
      simp [setA, lookupA, h]
    · by_cases h3 : a = k <;> simp [setA, lookupA, h2, h3, ih]

theorem lookupA_append_left {α β : Type} [DecidableEq α] {l : List (α × β)} {a : α} {v : β}
    (l2 : List (α × β)) (h : lookupA l a = some v) : lookupA (l ++ l2) a = some v := by
  induction l with
  | nil => simp [lookupA] at h
  | cons hd tl ih =>
    obtain ⟨k, w⟩ := hd
    by_cases h2 : a = k
    · simp_all [lookupA]
    · simp_all [lookupA]

theorem lookupA_append_right {α β : Type} [DecidableEq α] {l : List (α × β)} {a : α}
    (l2 : List (α × β)) (h : lookupA l a = none) : lookupA (l ++ l2) a = lookupA l2 a := by
  induction l with
  | nil => simp [lookupA]
  | cons hd tl ih =>
    obtain ⟨k, w⟩ := hd
    by_cases h2 : a = k
    · simp_all [lookupA]
    · simp_all [lookupA]

theorem lookupA_setA_isSome {α β : Type} [DecidableEq α] (l : List (α × β)) (a b : α) (v : β)
    (h : (lookupA l a).isSome) : (lookupA (setA l b v) a).isSome := by
  by_cases hab : a = b
  · subst hab
    simp [lookupA_setA_self]
  · rw [lookupA_setA_ne _ _ hab]
    exact h

/-- Every failing exit of `_create_key` happens before any mutation. -/
theorem createKey_error_state (env : Env) (base key dep : String) (isDefault : Bool)
    (st : DIState) :
    ∀ e st', createKey env base key dep isDefault st = (some e, st') → st' = st := by
  intro e st' h
  unfold createKey at h
  repeat' split at h
  all_goals simp_all

/-! ## Unfolding lemmas for the resolution core -/

theorem resolveCore_ident_abstract (env : Env) (fuel : Nat) (i : String) (st : DIState)
    {tbl : List (MKey × Entry)} (h : lookupA st.deps i = some (.abstract tbl)) :
    resolveCore env (fuel + 1) (.ident i) st = resolveCore env fuel (.defaultOf i "default") st := by
  simp [resolveCore, h]

theorem resolveCore_noImplementations (env : Env) (fuel : Nat) (base key : String)
    (st : DIState) {tbl : List (MKey × Entry)}
    (hB : lookupA st.deps base = some (.abstract tbl)) (hlen : tbl.length = 1) :
    resolveCore env (fuel + 1) (.defaultOf base key) st = (.error (.noImplementations base), st) := by
  simp [resolveCore, hB, hlen]

theorem resolveCore_defaultOf_entry (env : Env) (fuel : Nat) (base key : String)
    (st : DIState) {tbl : List (MKey × Entry)} {e : Entry}
    (hB : lookupA st.deps base = some (.abstract tbl)) (hlen : tbl.length ≠ 1)
    (he : lookupA tbl
      (if (lookupA tbl (.user key)).isSome then MKey.user key else .sentinel) = some e) :
    resolveCore env (fuel + 1) (.defaultOf base key) st = resolveCore env fuel (.entryOf base e) st := by
  simp [resolveCore, hB, hlen, he]

theorem effectiveEntry_user {tbl : List (MKey × Entry)} {key : String} {e : Entry}
    (h : lookupA tbl (.user key) = some e) :
    lookupA tbl (if (lookupA tbl (.user key)).isSome then MKey.user key else .sentinel) = some e := by
  simp [h]

theorem effectiveEntry_sentinel {tbl : List (MKey × Entry)} {key : String}
    (h : lookupA tbl (.user key) = none) :
    lookupA tbl (if (lookupA tbl (.user key)).isSome then MKey.user key else .sentinel) =
      lookupA tbl .sentinel := by
  simp [h]

theorem resolveCore_entry_factory (env : Env) (fuel : Nat) (base b : String) (st : DIState) :
    resolveCore env (fuel + 1) (.entryOf base (.factoryE b)) st = (.ok (.factory b), st) := by
  simp [resolveCore]

/-- Resolving a class entry whose identity is an uninitialized singleton:
construct, cache, and attach the resolver bound to the base. -/
theorem resolveCore_entry_impl_singleton_none (env : Env) (fuel : Nat) (base D : String)
    (st : DIState) (hD : lookupA st.deps D = some (.singleton none))
    (hct : env.ctor D = none) (hcls : env.classHasRFK D = false)
    (hfresh : lookupA st.rfk st.nextRef = none) :
    resolveCore env (fuel + 2) (.entryOf base (.impl D)) st =
      (.ok (.obj st.nextRef D),
       { st with deps := setA st.deps D (.singleton (some st.nextRef)),
                 rfk := setA st.rfk st.nextRef base,
                 nextRef := st.nextRef + 1 }) := by
  simp [resolveCore, isDependencyPresent, hD, hct, valueHasRFK, hcls, hfresh]

/-- Resolving a class entry whose identity is an initialized singleton that
already carries an attached resolver: the cached object is returned with no
state change and no re-attachment. -/
theorem resolveCore_entry_impl_singleton_cached (env : Env) (fuel : Nat) (base D b : String)
    (r : Nat) (st : DIState) (hD : lookupA st.deps D = some (.singleton (some r)))
    (hr : lookupA st.rfk r = some b) :
    resolveCore env (fuel + 2) (.entryOf base (.impl D)) st = (.ok (.obj r D), st) := by
  simp [resolveCore, isDependencyPresent, hD, valueHasRFK, hr]

/-- Resolving a class entry whose identity is an instance dependency:
construct a fresh object and attach the resolver bound to the base. -/
theorem resolveCore_entry_impl_fresh (env : Env) (fuel : Nat) (base D : String)
    (st : DIState) (hD : lookupA st.deps D = some .instSentinel)
    (hct : env.ctor D = none) (hcls : env.classHasRFK D = false)
    (hfresh : lookupA st.rfk st.nextRef = none) :
    resolveCore env (fuel + 2) (.entryOf base (.impl D)) st =
      (.ok (.obj st.nextRef D),
       { st with rfk := setA st.rfk st.nextRef base, nextRef := st.nextRef + 1 }) := by
  simp [resolveCore, isDependencyPresent, hD, hct, valueHasRFK, hcls, hfresh]

theorem resolveFromKey_missing (env : Env) (fuel : Nat) (base k : String) (st : DIState)
    {tbl : List (MKey × Entry)} (hB : lookupA st.deps base = some (.abstract tbl))
    (hk : lookupA tbl (.user k) = none) :
    resolveFromKey env fuel base k st = (.error (.unresolvableKey k base), st) := by
  simp [resolveFromKey, hB, hk]

theorem resolveFromKey_found (env : Env) (fuel : Nat) (base k c : String) (st : DIState)
    {tbl : List (MKey × Entry)} (hB : lookupA st.deps base = some (.abstract tbl))
    (hk : lookupA tbl (.user k) = some (.impl c)) :
    resolveFromKey env fuel base k st = resolveCore env fuel (.ident c) st := by
  simp [resolveFromKey, hB, hk]

/-- A singleton or instance identity with a non-failing constructor resolves
to an object of that class. -/
theorem getDependency_obj_of_record (env : Env) (fuel : Nat) (I : String) (st : DIState)
    (hct : env.ctor I = none)
    (hI : lookupA st.deps I = some (.singleton none) ∨ lookupA st.deps I = some .instSentinel ∨
      ∃ r, lookupA st.deps I = some (.singleton (some r))) :
    ∃ r st', resolveCore env (fuel + 1) (.ident I) st = (.ok (.obj r I), st') := by
  rcases hI with h | h | ⟨r, h⟩
  · exact ⟨st.nextRef,
      { st with deps := setA st.deps I (.singleton (some st.nextRef)), nextRef := st.nextRef + 1 },
      by simp [resolveCore, h, hct]⟩
  · exact ⟨st.nextRef, { st with nextRef := st.nextRef + 1 }, by simp [resolveCore, h, hct]⟩
  · exact ⟨r, st, by simp [resolveCore, h]⟩

/-! ## Claim theorems -/

/-- C3: for an identity registered as Singleton, the cached instance is
constructed lazily on the first resolve (the record moves from an empty cache
to holding the new object's reference), every later resolve returns that
identical same-reference value with no further state change, and a
constructor failure propagates to the caller unchanged, leaving the registry
untouched. -/
theorem singleton_lazy_cache_stable (env : Env) (fuel : Nat) (i : String) (st : DIState)
    (h : lookupA st.deps i = some (.singleton none)) :
    (∀ msg, env.ctor i = some msg →
      getDependency env (fuel + 1) i st = (.error (.userError msg), st)) ∧
    (env.ctor i = none →
      ∃ r st',
        getDependency env (fuel + 1) i st = (.ok (.obj r i), st') ∧
        lookupA st'.deps i = some (.singleton (some r)) ∧
        ∀ fuel2, getDependency env (fuel2 + 1) i st' = (.ok (.obj r i), st')) := by
  constructor
  · intro msg hmsg
    simp [getDependency, resolveCore, h, hmsg]
  · intro hc
    refine ⟨st.nextRef,
      { st with deps := setA st.deps i (.singleton (some st.nextRef)),
                nextRef := st.nextRef + 1 }, ?_, ?_, ?_⟩
    · simp [getDependency, resolveCore, h, hc]
    · simpa using lookupA_setA_self st.deps i (Record.singleton (some st.nextRef))
    · intro fuel2
      simp [getDependency, resolveCore, lookupA_setA_self st.deps i]

/-- C3 witness: instantiation at a concrete registry holding one
uninitialized singleton with a non-failing constructor. -/
theorem singleton_lazy_cache_stable_witness :
    lookupA (DIState.mk [("S", .singleton none)] [] 0).deps "S" = some (.singleton none) ∧
    ∃ r st',
      getDependency (Env.mk (fun _ => false) (fun _ => none) id) 1 "S"
          (DIState.mk [("S", .singleton none)] [] 0) = (.ok (.obj r "S"), st') ∧
      lookupA st'.deps "S" = some (.singleton (some r)) ∧
      ∀ fuel2, getDependency (Env.mk (fun _ => false) (fun _ => none) id) (fuel2 + 1) "S" st' =
        (.ok (.obj r "S"), st') :=
  ⟨by decide,
   (singleton_lazy_cache_stable (Env.mk (fun _ => false) (fun _ => none) id) 0 "S"
      (DIState.mk [("S", .singleton none)] [] 0) (by decide)).2 (by decide)⟩

/-- C4: for an identity registered as Instance, each resolve constructs a
fresh value, two successive resolves return objects with distinct references,
and nothing is cached: the dependencies dict is unchanged by both calls. -/
theorem instance_fresh_distinct (env : Env) (fuel fuel2 : Nat) (i : String) (st : DIState)
    (h : lookupA st.deps i = some .instSentinel) (hc : env.ctor i = none) :
    ∃ r1 st1 r2 st2,
      getDependency env (fuel + 1) i st = (.ok (.obj r1 i), st1) ∧
      getDependency env (fuel2 + 1) i st1 = (.ok (.obj r2 i), st2) ∧
      r1 ≠ r2 ∧ st1.deps = st.deps ∧ st2.deps = st.deps := by
  refine ⟨st.nextRef, { st with nextRef := st.nextRef + 1 },
    st.nextRef + 1, { st with nextRef := st.nextRef + 2 }, ?_, ?_, ?_, rfl, rfl⟩
  · simp [getDependency, resolveCore, h, hc]
  · simp [getDependency, resolveCore, h, hc]
  · omega

/-- C4 witness: instantiation at a concrete registry holding one instance
dependency. -/
theorem instance_fresh_distinct_witness :
    lookupA (DIState.mk [("R", .instSentinel)] [] 0).deps "R" = some .instSentinel ∧
    ∃ r1 st1 r2 st2,
      getDependency (Env.mk (fun _ => false) (fun _ => none) id) 1 "R"
          (DIState.mk [("R", .instSentinel)] [] 0) = (.ok (.obj r1 "R"), st1) ∧
      getDependency (Env.mk (fun _ => false) (fun _ => none) id) 1 "R" st1 =
          (.ok (.obj r2 "R"), st2) ∧
      r1 ≠ r2 ∧ st1.deps = (DIState.mk [("R", .instSentinel)] [] 0).deps ∧
      st2.deps = (DIState.mk [("R", .instSentinel)] [] 0).deps :=
  ⟨by decide,
   instance_fresh_distinct (Env.mk (fun _ => false) (fun _ => none) id) 0 0 "R"
     (DIState.mk [("R", .instSentinel)] [] 0) (by decide) (by decide)⟩

/-- C8: once an identity is present in the registry, registering it again
under any of the three kinds (singleton, instance, abstract base) fails with
DuplicateRegistration and leaves the registry exactly as it was, so the first
registration stays in effect. -/
theorem duplicate_registration_any_kind (st : DIState) (i : String)
    (h : (lookupA st.deps i).isSome) :
    registerSingleton i st = (some (.duplicateRegistration i), st) ∧
    registerInstance i st = (some (.duplicateRegistration i), st) ∧
    registerAbstractBase i st = (some (.duplicateRegistration i), st) := by
  refine ⟨?_, ?_, ?_⟩ <;> simp [registerSingleton, registerInstance, registerAbstractBase,
    addDependency, h]

/-- A neutral environment for concrete scenarios: no class defines
`resolve_from_key`, no constructor raises. -/
def plainEnv : Env := ⟨fun _ => false, fun _ => none, id⟩

/-- C10: attaching the resolution extension mutates the resolved value
itself.  For a base whose default implementation D is an uninitialized
singleton, resolving the base once constructs and caches D's instance and
attaches the resolver bound to the base to that very object; afterwards every
direct resolve of D's own identity returns the same shared reference, which
still carries the attached capability. -/
theorem attach_mutates_shared_singleton (env : Env) (fuel : Nat) (B D : String)
    (st : DIState) (tbl : List (MKey × Entry))
    (hB : lookupA st.deps B = some (.abstract tbl)) (hlen : tbl.length ≠ 1)
    (hdef : lookupA tbl (.user "default") = some (.impl D) ∨
      (lookupA tbl (.user "default") = none ∧ lookupA tbl .sentinel = some (.impl D)))
    (hD : lookupA st.deps D = some (.singleton none))
    (hct : env.ctor D = none) (hcls : env.classHasRFK D = false)
    (hfresh : lookupA st.rfk st.nextRef = none) :
    ∃ r st',
      getDependency env (fuel + 4) B st = (.ok (.obj r D), st') ∧
      lookupA st'.rfk r = some B ∧
      lookupA st'.deps D = some (.singleton (some r)) ∧
      ∀ f3, getDependency env (f3 + 1) D st' = (.ok (.obj r D), st') := by
  have he : lookupA tbl
      (if (lookupA tbl (.user "default")).isSome then MKey.user "default" else .sentinel) =
      some (.impl D) := by
    rcases hdef with h | ⟨h1, h2⟩
    · exact effectiveEntry_user h
    · rw [effectiveEntry_sentinel h1]; exact h2
  refine ⟨st.nextRef,
    { st with deps := setA st.deps D (.singleton (some st.nextRef)),
              rfk := setA st.rfk st.nextRef B, nextRef := st.nextRef + 1 }, ?_, ?_, ?_, ?_⟩
  · calc getDependency env (fuel + 4) B st
        = resolveCore env (fuel + 3) (.defaultOf B "default") st :=
          resolveCore_ident_abstract env (fuel + 3) B st hB
      _ = resolveCore env (fuel + 2) (.entryOf B (.impl D)) st :=
          resolveCore_defaultOf_entry env (fuel + 2) B "default" st hB hlen he
      _ = _ := resolveCore_entry_impl_singleton_none env fuel B D st hD hct hcls hfresh
  · simpa using lookupA_setA_self st.rfk st.nextRef B
  · simpa using lookupA_setA_self st.deps D (Record.singleton (some st.nextRef))
  · intro f3
    simp [getDependency, resolveCore, lookupA_setA_self st.deps D]

/-- C10 witness: a concrete base with a singleton default registered under
key "d". -/
theorem attach_mutates_shared_singleton_witness :
    lookupA (DIState.mk
      [("B", .abstract [(.sentinel, .impl "D"), (.user "d", .impl "D")]),
       ("D", .singleton none)] [] 0).deps "B" =
      some (.abstract [(.sentinel, .impl "D"), (.user "d", .impl "D")]) ∧
    ∃ r st',
      getDependency plainEnv 4 "B" (DIState.mk
        [("B", .abstract [(.sentinel, .impl "D"), (.user "d", .impl "D")]),
         ("D", .singleton none)] [] 0) = (.ok (.obj r "D"), st') ∧
      lookupA st'.rfk r = some "B" ∧
      lookupA st'.deps "D" = some (.singleton (some r)) ∧
      ∀ f3, getDependency plainEnv (f3 + 1) "D" st' = (.ok (.obj r "D"), st') :=
  ⟨by decide,
   attach_mutates_shared_singleton plainEnv 0 "B" "D"
     (DIState.mk
       [("B", .abstract [(.sentinel, .impl "D"), (.user "d", .impl "D")]),
        ("D", .singleton none)] [] 0)
     [(.sentinel, .impl "D"), (.user "d", .impl "D")]
     (by decide) (by decide) (Or.inr ⟨by decide, by decide⟩) (by decide) (by decide)
     (by decide) (by decide)⟩

/-- C1 counterexample: a base with a registered default D (under key "d")
and a keyed implementation "default" → I.  The claim predicts `resolve(B)`
yields D's resolved form, but because the implementation key is the literal
string "default" the code resolves I instead. -/
theorem abstract_default_and_pivot_cex :
    (registerAbstractBase "A" emptyState).1 = none ∧
    (createImplementation plainEnv "A" "d" "D" true .fresh
      (registerAbstractBase "A" emptyState).2).1 = none ∧
    (createImplementation plainEnv "A" "default" "I" false .fresh
      (createImplementation plainEnv "A" "d" "D" true .fresh
        (registerAbstractBase "A" emptyState).2).2).1 = none ∧
    lookupA (createImplementation plainEnv "A" "default" "I" false .fresh
      (createImplementation plainEnv "A" "d" "D" true .fresh
        (registerAbstractBase "A" emptyState).2).2).2.deps "A" =
      some (.abstract [(.sentinel, .impl "D"), (.user "d", .impl "D"),
        (.user "default", .impl "I")]) ∧
    (getDependency plainEnv 9 "A" (createImplementation plainEnv "A" "default" "I" false .fresh
      (createImplementation plainEnv "A" "d" "D" true .fresh
        (registerAbstractBase "A" emptyState).2).2).2).1 = .ok (.obj 0 "I") := by
  decide

/-- C1 corrected: for an abstract base B with a registered default D and a
keyed implementation K → I, provided any implementation sitting under the
literal user key "default" is D itself, `resolve(B)` returns D's resolved
form (cached for singletons, fresh for instance dependencies) with the
resolver bound to B attached unless the value already carries it; invoking
the resolver with K returns I's resolved form, and invoking it with a key
absent from B's mapping fails with UnresolvableKey naming the key and the
base. -/
theorem abstract_default_and_pivot (env : Env) (fuel f2 f3 : Nat) (B D I K : String)
    (st : DIState) (tbl : List (MKey × Entry))
    (hB : lookupA st.deps B = some (.abstract tbl)) (hlen : tbl.length ≠ 1)
    (hsent : lookupA tbl .sentinel = some (.impl D))
    (hdef : lookupA tbl (.user "default") = some (.impl D) ∨
      lookupA tbl (.user "default") = none)
    (hK : lookupA tbl (.user K) = some (.impl I))
    (hcls : env.classHasRFK D = false)
    (hct : env.ctor D = none) (hctI : env.ctor I = none)
    (hfresh : lookupA st.rfk st.nextRef = none) :
    ((lookupA st.deps D = some (.singleton none) →
       getDependency env (fuel + 4) B st =
         (.ok (.obj st.nextRef D),
          { st with deps := setA st.deps D (.singleton (some st.nextRef)),
                    rfk := setA st.rfk st.nextRef B, nextRef := st.nextRef + 1 })) ∧
     (lookupA st.deps D = some .instSentinel →
       getDependency env (fuel + 4) B st =
         (.ok (.obj st.nextRef D),
          { st with rfk := setA st.rfk st.nextRef B, nextRef := st.nextRef + 1 })) ∧
     (∀ r b, lookupA st.deps D = some (.singleton (some r)) → lookupA st.rfk r = some b →
       getDependency env (fuel + 4) B st = (.ok (.obj r D), st))) ∧
    (∀ st2, lookupA st2.deps B = some (.abstract tbl) →
      (lookupA st2.deps I = some (.singleton none) ∨ lookupA st2.deps I = some .instSentinel ∨
        ∃ r, lookupA st2.deps I = some (.singleton (some r))) →
      ∃ r' st3, resolveFromKey env (f2 + 1) B K st2 = (.ok (.obj r' I), st3)) ∧
    (∀ st2 k, lookupA st2.deps B = some (.abstract tbl) → lookupA tbl (.user k) = none →
      resolveFromKey env f3 B k st2 = (.error (.unresolvableKey k B), st2)) := by
  have he : lookupA tbl
      (if (lookupA tbl (.user "default")).isSome then MKey.user "default" else .sentinel) =
      some (.impl D) := by
    rcases hdef with h | h
    · exact effectiveEntry_user h
    · rw [effectiveEntry_sentinel h]; exact hsent
  have hstep : ∀ g : Nat, getDependency env (g + 4) B st =
      resolveCore env (g + 2) (.entryOf B (.impl D)) st := by
    intro g
    calc getDependency env (g + 4) B st
        = resolveCore env (g + 3) (.defaultOf B "default") st :=
          resolveCore_ident_abstract env (g + 3) B st hB
      _ = resolveCore env (g + 2) (.entryOf B (.impl D)) st :=
          resolveCore_defaultOf_entry env (g + 2) B "default" st hB hlen he
  refine ⟨⟨?_, ?_, ?_⟩, ?_, ?_⟩
  · intro hD
    rw [hstep fuel]
    exact resolveCore_entry_impl_singleton_none env fuel B D st hD hct hcls hfresh
  · intro hD
    rw [hstep fuel]
    exact resolveCore_entry_impl_fresh env fuel B D st hD hct hcls hfresh
  · intro r b hD hr
    rw [hstep fuel]
    exact resolveCore_entry_impl_singleton_cached env fuel B D b r st hD hr
  · intro st2 hB2 hI2
    rw [resolveFromKey_found env (f2 + 1) B K I st2 hB2 hK]
    exact getDependency_obj_of_record env f2 I st2 hctI hI2
  · intro st2 k hB2 hk
    exact resolveFromKey_missing env f3 B k st2 hB2 hk

/-- C1 corrected witness: concrete base with singleton default "D" under key
"d" and instance implementation "I" under key "k"; the resolver is invoked on
the post-resolution state. -/
theorem abstract_default_and_pivot_witness :
    lookupA [(MKey.sentinel, Entry.impl "D"), (.user "d", .impl "D"), (.user "k", .impl "I")]
      .sentinel = some (.impl "D") ∧
    getDependency plainEnv 4 "B" (DIState.mk
      [("B", .abstract [(.sentinel, .impl "D"), (.user "d", .impl "D"), (.user "k", .impl "I")]),
       ("D", .singleton none), ("I", .instSentinel)] [] 0) =
      (.ok (.obj 0 "D"), DIState.mk
        [("B", .abstract [(.sentinel, .impl "D"), (.user "d", .impl "D"), (.user "k", .impl "I")]),
         ("D", .singleton (some 0)), ("I", .instSentinel)] [(0, "B")] 1) ∧
    (∃ r' st3, resolveFromKey plainEnv 1 "B" "k" (DIState.mk
      [("B", .abstract [(.sentinel, .impl "D"), (.user "d", .impl "D"), (.user "k", .impl "I")]),
       ("D", .singleton (some 0)), ("I", .instSentinel)] [(0, "B")] 1) =
      (.ok (.obj r' "I"), st3)) ∧
    resolveFromKey plainEnv 1 "B" "zz" (DIState.mk
      [("B", .abstract [(.sentinel, .impl "D"), (.user "d", .impl "D"), (.user "k", .impl "I")]),
       ("D", .singleton (some 0)), ("I", .instSentinel)] [(0, "B")] 1) =
      (.error (.unresolvableKey "zz" "B"), DIState.mk
        [("B", .abstract [(.sentinel, .impl "D"), (.user "d", .impl "D"), (.user "k", .impl "I")]),
         ("D", .singleton (some 0)), ("I", .instSentinel)] [(0, "B")] 1) := by
  have h := abstract_default_and_pivot plainEnv 0 0 1 "B" "D" "I" "k"
    (DIState.mk
      [("B", .abstract [(.sentinel, .impl "D"), (.user "d", .impl "D"), (.user "k", .impl "I")]),
       ("D", .singleton none), ("I", .instSentinel)] [] 0)
    [(.sentinel, .impl "D"), (.user "d", .impl "D"), (.user "k", .impl "I")]
    (by decide) (by decide) (by decide) (Or.inr (by decide)) (by decide) (by decide)
    (by decide) (by decide) (by decide)
  refine ⟨by decide, ?_, ?_, ?_⟩
  · simpa using h.1.1 (by decide)
  · simpa using h.2.1 (DIState.mk
      [("B", .abstract [(.sentinel, .impl "D"), (.user "d", .impl "D"), (.user "k", .impl "I")]),
       ("D", .singleton (some 0)), ("I", .instSentinel)] [(0, "B")] 1) (by decide)
      (Or.inr (Or.inl (by decide)))
  · simpa using h.2.2 (DIState.mk
      [("B", .abstract [(.sentinel, .impl "D"), (.user "d", .impl "D"), (.user "k", .impl "I")]),
       ("D", .singleton (some 0)), ("I", .instSentinel)] [(0, "B")] 1) "zz" (by decide) (by decide)

/-- C2 counterexample: a base with no concrete default (the sentinel still
holds the seeded factory) but an implementation registered under the literal
key "default"; the claim predicts `resolve(B)` yields the Implementation
Factory, but the code resolves the "default"-keyed implementation. -/
theorem abstract_factory_and_no_impl_cex :
    (registerAbstractBase "C" emptyState).1 = none ∧
    (createImplementation plainEnv "C" "default" "X" false .single
      (registerAbstractBase "C" emptyState).2).1 = none ∧
    lookupA (createImplementation plainEnv "C" "default" "X" false .single
      (registerAbstractBase "C" emptyState).2).2.deps "C" =
      some (.abstract [(.sentinel, .factoryE "C"), (.user "default", .impl "X")]) ∧
    (getDependency plainEnv 9 "C" (createImplementation plainEnv "C" "default" "X" false .single
      (registerAbstractBase "C" emptyState).2).2).1 = .ok (.obj 0 "X") := by
  decide

/-- C2 corrected: `resolve` on a base with zero implementations fails with
NoImplementations; on a base with no concrete default and an implementation
K → I, provided no implementation sits under the literal user key "default",
`resolve(B)` returns the Implementation Factory, whose key resolution at K
yields I's resolved form and at any absent key fails with UnresolvableKey. -/
theorem abstract_factory_and_no_impl (env : Env) (fuel f2 f3 : Nat) (B I K : String)
    (st : DIState) (tbl : List (MKey × Entry))
    (hB : lookupA st.deps B = some (.abstract tbl)) :
    (tbl.length = 1 →
      getDependency env (fuel + 2) B st = (.error (.noImplementations B), st)) ∧
    (tbl.length ≠ 1 →
     lookupA tbl .sentinel = some (.factoryE B) →
     lookupA tbl (.user "default") = none →
     lookupA tbl (.user K) = some (.impl I) →
       getDependency env (fuel + 3) B st = (.ok (.factory B), st) ∧
       (env.ctor I = none →
        (lookupA st.deps I = some (.singleton none) ∨ lookupA st.deps I = some .instSentinel ∨
          ∃ r, lookupA st.deps I = some (.singleton (some r))) →
        ∃ r' st3, resolveFromKey env (f2 + 1) B K st = (.ok (.obj r' I), st3)) ∧
       (∀ k, lookupA tbl (.user k) = none →
         resolveFromKey env f3 B k st = (.error (.unresolvableKey k B), st))) := by
  constructor
  · intro h1
    calc getDependency env (fuel + 2) B st
        = resolveCore env (fuel + 1) (.defaultOf B "default") st :=
          resolveCore_ident_abstract env (fuel + 1) B st hB
      _ = (.error (.noImplementations B), st) :=
          resolveCore_noImplementations env fuel B "default" st hB h1
  · intro hlen hsent hnod hK
    refine ⟨?_, ?_, ?_⟩
    · have he : lookupA tbl
          (if (lookupA tbl (.user "default")).isSome then MKey.user "default" else .sentinel) =
          some (.factoryE B) := by
        rw [effectiveEntry_sentinel hnod]; exact hsent
      calc getDependency env (fuel + 3) B st
          = resolveCore env (fuel + 2) (.defaultOf B "default") st :=
            resolveCore_ident_abstract env (fuel + 2) B st hB
        _ = resolveCore env (fuel + 1) (.entryOf B (.factoryE B)) st :=
            resolveCore_defaultOf_entry env (fuel + 1) B "default" st hB hlen he
        _ = (.ok (.factory B), st) := resolveCore_entry_factory env fuel B B st
    · intro hctI hI
      rw [resolveFromKey_found env (f2 + 1) B K I st hB hK]
      exact getDependency_obj_of_record env f2 I st hctI hI
    · intro k hk
      exact resolveFromKey_missing env f3 B k st hB hk

/-- C2 corrected witness: a base with only the seed entry fails with
NoImplementations; a base with "k" → "I" and no default resolves to the
factory, pivots to I, and rejects an absent key. -/
theorem abstract_factory_and_no_impl_witness :
    lookupA (DIState.mk [("B", .abstract [(.sentinel, .factoryE "B")])] [] 0).deps "B" =
      some (.abstract [(.sentinel, .factoryE "B")]) ∧
    getDependency plainEnv 2 "B" (DIState.mk [("B", .abstract [(.sentinel, .factoryE "B")])] [] 0) =
      (.error (.noImplementations "B"), DIState.mk [("B", .abstract [(.sentinel, .factoryE "B")])] [] 0) ∧
    getDependency plainEnv 3 "B" (DIState.mk
      [("B", .abstract [(.sentinel, .factoryE "B"), (.user "k", .impl "I")]),
       ("I", .instSentinel)] [] 0) =
      (.ok (.factory "B"), DIState.mk
        [("B", .abstract [(.sentinel, .factoryE "B"), (.user "k", .impl "I")]),
         ("I", .instSentinel)] [] 0) ∧
    (∃ r' st3, resolveFromKey plainEnv 1 "B" "k" (DIState.mk
      [("B", .abstract [(.sentinel, .factoryE "B"), (.user "k", .impl "I")]),
       ("I", .instSentinel)] [] 0) = (.ok (.obj r' "I"), st3)) ∧
    resolveFromKey plainEnv 1 "B" "zz" (DIState.mk
      [("B", .abstract [(.sentinel, .factoryE "B"), (.user "k", .impl "I")]),
       ("I", .instSentinel)] [] 0) =
      (.error (.unresolvableKey "zz" "B"), DIState.mk
        [("B", .abstract [(.sentinel, .factoryE "B"), (.user "k", .impl "I")]),
         ("I", .instSentinel)] [] 0) := by
  have h1 := abstract_factory_and_no_impl plainEnv 0 0 1 "B" "I" "k"
    (DIState.mk [("B", .abstract [(.sentinel, .factoryE "B")])] [] 0)
    [(.sentinel, .factoryE "B")] (by decide)
  have h2 := abstract_factory_and_no_impl plainEnv 0 0 1 "B" "I" "k"
    (DIState.mk
      [("B", .abstract [(.sentinel, .factoryE "B"), (.user "k", .impl "I")]),
       ("I", .instSentinel)] [] 0)
    [(.sentinel, .factoryE "B"), (.user "k", .impl "I")] (by decide)
  have h2' := h2.2 (by decide) (by decide) (by decide) (by decide)
  refine ⟨by decide, ?_, ?_, ?_, ?_⟩
  · simpa using h1.1 (by decide)
  · simpa using h2'.1
  · simpa using h2'.2.1 (by decide) (Or.inr (Or.inl (by decide)))
  · simpa using h2'.2.2 "zz" (by decide)

/-- C6 counterexample: the first registration chain succeeds and produces a
base whose reserved-sentinel entry holds the concrete default D, yet because
a non-default implementation X sits under the user key "default", resolving
the base with no caller-supplied key returns X's instance rather than a value
determined by the sentinel entry. -/
theorem default_key_shadows_sentinel_cex :
    (registerAbstractBase "B" emptyState).1 = none ∧
    (createImplementation plainEnv "B" "d" "D" true .single
      (registerAbstractBase "B" emptyState).2).1 = none ∧
    (createImplementation plainEnv "B" "default" "X" false .single
      (createImplementation plainEnv "B" "d" "D" true .single
        (registerAbstractBase "B" emptyState).2).2).1 = none ∧
    lookupA (createImplementation plainEnv "B" "default" "X" false .single
      (createImplementation plainEnv "B" "d" "D" true .single
        (registerAbstractBase "B" emptyState).2).2).2.deps "B" =
      some (.abstract [(.sentinel, .impl "D"), (.user "d", .impl "D"),
        (.user "default", .impl "X")]) ∧
    (getDependency plainEnv 9 "B" (createImplementation plainEnv "B" "default" "X" false .single
      (createImplementation plainEnv "B" "d" "D" true .single
        (registerAbstractBase "B" emptyState).2).2).2).1 = .ok (.obj 0 "X") := by
  decide

/-- C6 corrected: when `resolve` is applied to an abstract base with no
caller-supplied key, the effective key is the literal string "default"
whenever that user key is present in the base's mapping, and only otherwise
the reserved default sentinel; resolution then proceeds on the entry found
under the effective key. -/
theorem effective_key_literal_then_sentinel (env : Env) (fuel : Nat) (B : String)
    (st : DIState) (tbl : List (MKey × Entry))
    (hB : lookupA st.deps B = some (.abstract tbl)) (hlen : tbl.length ≠ 1) :
    (∀ e, lookupA tbl (.user "default") = some e →
      getDependency env (fuel + 2) B st = resolveCore env fuel (.entryOf B e) st) ∧
    (lookupA tbl (.user "default") = none →
      ∀ e, lookupA tbl .sentinel = some e →
        getDependency env (fuel + 2) B st = resolveCore env fuel (.entryOf B e) st) := by
  constructor
  · intro e he
    calc getDependency env (fuel + 2) B st
        = resolveCore env (fuel + 1) (.defaultOf B "default") st :=
          resolveCore_ident_abstract env (fuel + 1) B st hB
      _ = resolveCore env fuel (.entryOf B e) st :=
          resolveCore_defaultOf_entry env fuel B "default" st hB hlen (effectiveEntry_user he)
  · intro hnone e he
    calc getDependency env (fuel + 2) B st
        = resolveCore env (fuel + 1) (.defaultOf B "default") st :=
          resolveCore_ident_abstract env (fuel + 1) B st hB
      _ = resolveCore env fuel (.entryOf B e) st := by
          refine resolveCore_defaultOf_entry env fuel B "default" st hB hlen ?_
          rw [effectiveEntry_sentinel hnone]; exact he

/-- C6 corrected witness: with X registered under the user key "default" the
effective entry is X's, bypassing the sentinel. -/
theorem effective_key_literal_then_sentinel_witness :
    lookupA (DIState.mk
      [("B", .abstract [(.sentinel, .factoryE "B"), (.user "default", .impl "X")]),
       ("X", .instSentinel)] [] 0).deps "B" =
      some (.abstract [(.sentinel, .factoryE "B"), (.user "default", .impl "X")]) ∧
    getDependency plainEnv 2 "B" (DIState.mk
      [("B", .abstract [(.sentinel, .factoryE "B"), (.user "default", .impl "X")]),
       ("X", .instSentinel)] [] 0) =
      resolveCore plainEnv 0 (.entryOf "B" (.impl "X")) (DIState.mk
        [("B", .abstract [(.sentinel, .factoryE "B"), (.user "default", .impl "X")]),
         ("X", .instSentinel)] [] 0) :=
  ⟨by decide,
   (effective_key_literal_then_sentinel plainEnv 0 "B"
     (DIState.mk
       [("B", .abstract [(.sentinel, .factoryE "B"), (.user "default", .impl "X")]),
        ("X", .instSentinel)] [] 0)
     [(.sentinel, .factoryE "B"), (.user "default", .impl "X")]
     (by decide) (by decide)).1 (.impl "X") (by decide)⟩

/-- C8 witness: a singleton-registered identity rejects re-registration under
every kind. -/
theorem duplicate_registration_any_kind_witness :
    (lookupA (DIState.mk [("S", .singleton none)] [] 0).deps "S").isSome ∧
    registerSingleton "S" (DIState.mk [("S", .singleton none)] [] 0) =
      (some (.duplicateRegistration "S"), DIState.mk [("S", .singleton none)] [] 0) ∧
    registerInstance "S" (DIState.mk [("S", .singleton none)] [] 0) =
      (some (.duplicateRegistration "S"), DIState.mk [("S", .singleton none)] [] 0) ∧
    registerAbstractBase "S" (DIState.mk [("S", .singleton none)] [] 0) =
      (some (.duplicateRegistration "S"), DIState.mk [("S", .singleton none)] [] 0) :=
  ⟨by decide, duplicate_registration_any_kind (DIState.mk [("S", .singleton none)] [] 0) "S"
    (by decide)⟩

/-- C5 counterexample: registering implementation X for base P fails with
DuplicateRegistration because X is already a registered dependency, yet the
base's implementation mapping has already been extended with the key "k" —
the registry is not left as it was before the call. -/
theorem registration_not_atomic_cex :
    (registerAbstractBase "P" emptyState).1 = none ∧
    (registerSingleton "X" (registerAbstractBase "P" emptyState).2).1 = none ∧
    createImplementation plainEnv "P" "k" "X" false .single
      (registerSingleton "X" (registerAbstractBase "P" emptyState).2).2 =
      (some (.duplicateRegistration "X"),
       DIState.mk [("P", .abstract [(.sentinel, .factoryE "P"), (.user "k", .impl "X")]),
                   ("X", .singleton none)] [] 0) ∧
    (createImplementation plainEnv "P" "k" "X" false .single
      (registerSingleton "X" (registerAbstractBase "P" emptyState).2).2).2 ≠
      (registerSingleton "X" (registerAbstractBase "P" emptyState).2).2 := by
  decide

/-- C5 corrected: a failing registration leaves the registry unchanged in
every case except one: when all the checks of `_create_key` pass but the
implementation identity itself is already registered, the call fails with
DuplicateRegistration only after the base's mapping has been extended with
the new key (and new default when `isDefault`), and that extension
remains. -/
theorem registration_atomic_except_late_dup (env : Env) (base key dep : String)
    (isDefault : Bool) (life : Life) (st : DIState) :
    (∀ e st', createImplementation env base key dep isDefault life st = (some e, st') →
      e ≠ .duplicateRegistration dep → st' = st) ∧
    (∀ tbl, lookupA st.deps base = some (.abstract tbl) →
      checkDefaultClash tbl base dep isDefault = none →
      checkKeyClash tbl base key dep = none →
      (isDefault && env.classHasRFK dep) = false →
      (lookupA st.deps dep).isSome →
      createImplementation env base key dep isDefault life st =
        (some (.duplicateRegistration dep),
         { st with deps := setA st.deps base (.abstract
            (if isDefault
              then setA (setA tbl (.user key) (.impl dep)) .sentinel (.impl dep)
              else setA tbl (.user key) (.impl dep))) })) := by
  constructor
  · intro e st' h hne
    unfold createImplementation at h
    split at h
    · obtain ⟨-, h2⟩ := Prod.mk.injEq .. ▸ h
      exact h2.symm
    · split at h
      · next e2 st2 heq =>
        obtain ⟨-, h2⟩ := Prod.mk.injEq .. ▸ h
        rw [← h2]
        exact createKey_error_state env base key dep isDefault st e2 st2 heq
      · next st2 heq =>
        unfold addDependency at h
        split at h
        · obtain ⟨h1, -⟩ := Prod.mk.injEq .. ▸ h
          exact absurd h1.symm (by simpa using hne)
        · simp at h
  · intro tbl hB hdc hkc hrfk hdup
    have hs : (lookupA (setA st.deps base (.abstract
        (if isDefault then setA (setA tbl (.user key) (.impl dep)) .sentinel (.impl dep)
         else setA tbl (.user key) (.impl dep)))) dep).isSome :=
      lookupA_setA_isSome st.deps dep base _ hdup
    simp [createImplementation, createKey, hB, hdc, hkc, hrfk, addDependency, hs]

/-- C5 corrected witness: part one at a state where the base's record is a
plain singleton (the call fails without touching the state), part two at the
DuplicateRegistration scenario of the counterexample. -/
theorem registration_atomic_except_late_dup_witness :
    (createImplementation plainEnv "X" "k" "Y" false .single
      (DIState.mk [("X", .singleton none)] [] 0)).2 = DIState.mk [("X", .singleton none)] [] 0 ∧
    createImplementation plainEnv "P" "k" "X" false .single
      (DIState.mk [("P", .abstract [(.sentinel, .factoryE "P")]), ("X", .singleton none)] [] 0) =
      (some (.duplicateRegistration "X"),
       DIState.mk [("P", .abstract [(.sentinel, .factoryE "P"), (.user "k", .impl "X")]),
                   ("X", .singleton none)] [] 0) := by
  have h1 := (registration_atomic_except_late_dup plainEnv "X" "k" "Y" false .single
    (DIState.mk [("X", .singleton none)] [] 0)).1 .hostTypeError
    (createImplementation plainEnv "X" "k" "Y" false .single
      (DIState.mk [("X", .singleton none)] [] 0)).2 (by decide) (by decide)
  have h2 := (registration_atomic_except_late_dup plainEnv "P" "k" "X" false .single
    (DIState.mk [("P", .abstract [(.sentinel, .factoryE "P")]), ("X", .singleton none)] [] 0)).2
    [(.sentinel, .factoryE "P")] (by decide) (by decide) (by decide) (by decide) (by decide)
  exact ⟨h1, by simpa using h2⟩

/-- C7 counterexample: the target base "X" is registered, but as a singleton
rather than an abstract base; `_assert_base_present` passes and the call then
fails with a host TypeError from subscripting the non-dict record, not with
UnregisteredBase as the claim states. -/
theorem implementation_errors_cex :
    lookupA (registerSingleton "X" emptyState).2.deps "X" = some (.singleton none) ∧
    createImplementation plainEnv "X" "k" "Y" false .single
      (registerSingleton "X" emptyState).2 =
      (some .hostTypeError, (registerSingleton "X" emptyState).2) := by
  decide

/-- C7 corrected: `registerImplementation` fails with UnregisteredBase only
when the base is not registered at all; a base registered as a singleton or
instance dependency produces a host TypeError instead.  Against an abstract
base it fails with DuplicateDefault (naming the existing default) when
`isDefault` is set and a concrete default exists, with DuplicateKey (naming
the colliding identity) when the key is taken, and with
ReservedCapabilityConflict when `isDefault` is set and the candidate class
already has a `resolve_from_key` attribute. -/
theorem implementation_registration_errors (env : Env) (base key dep : String)
    (isDefault : Bool) (life : Life) (st : DIState) :
    (lookupA st.deps base = none →
      createImplementation env base key dep isDefault life st =
        (some (.unregisteredBase base dep), st)) ∧
    (∀ c, lookupA st.deps base = some (.singleton c) →
      createImplementation env base key dep isDefault life st = (some .hostTypeError, st)) ∧
    (lookupA st.deps base = some .instSentinel →
      createImplementation env base key dep isDefault life st = (some .hostTypeError, st)) ∧
    (∀ tbl d, lookupA st.deps base = some (.abstract tbl) → isDefault = true →
      lookupA tbl .sentinel = some (.impl d) →
      createImplementation env base key dep isDefault life st =
        (some (.duplicateDefault base dep d), st)) ∧
    (∀ tbl ex, lookupA st.deps base = some (.abstract tbl) →
      checkDefaultClash tbl base dep isDefault = none →
      lookupA tbl (.user key) = some (.impl ex) →
      createImplementation env base key dep isDefault life st =
        (some (.duplicateKey base dep key ex), st)) ∧
    (∀ tbl, lookupA st.deps base = some (.abstract tbl) →
      checkDefaultClash tbl base dep isDefault = none →
      lookupA tbl (.user key) = none →
      isDefault = true → env.classHasRFK dep = true →
      createImplementation env base key dep isDefault life st =
        (some (.reservedConflict base dep), st)) := by
  refine ⟨?_, ?_, ?_, ?_, ?_, ?_⟩
  · intro h
    simp [createImplementation, h]
  · intro c h
    simp [createImplementation, createKey, h]
  · intro h
    simp [createImplementation, createKey, h]
  · intro tbl d hB hd hsent
    simp [createImplementation, createKey, checkDefaultClash, hB, hd, hsent]
  · intro tbl ex hB hdc hk
    simp [createImplementation, createKey, checkKeyClash, hB, hdc, hk]
  · intro tbl hB hdc hk hd hr
    rw [hd] at hdc
    simp [createImplementation, createKey, checkKeyClash, hB, hdc, hk, hd, hr]

/-- C7 corrected witness: each failure mode exercised at a concrete state. -/
theorem implementation_registration_errors_witness :
    createImplementation plainEnv "B" "k" "Y" false .single emptyState =
      (some (.unregisteredBase "B" "Y"), emptyState) ∧
    createImplementation plainEnv "B" "k" "Y" false .single
      (DIState.mk [("B", .singleton none)] [] 0) =
      (some .hostTypeError, DIState.mk [("B", .singleton none)] [] 0) ∧
    createImplementation plainEnv "B" "k" "Y" false .single
      (DIState.mk [("B", .instSentinel)] [] 0) =
      (some .hostTypeError, DIState.mk [("B", .instSentinel)] [] 0) ∧
    createImplementation plainEnv "B" "k" "Y" true .single
      (DIState.mk [("B", .abstract [(.sentinel, .impl "D"), (.user "d", .impl "D")])] [] 0) =
      (some (.duplicateDefault "B" "Y" "D"),
       DIState.mk [("B", .abstract [(.sentinel, .impl "D"), (.user "d", .impl "D")])] [] 0) ∧
    createImplementation plainEnv "B" "k" "Y" false .single
      (DIState.mk [("B", .abstract [(.sentinel, .factoryE "B"), (.user "k", .impl "E")])] [] 0) =
      (some (.duplicateKey "B" "Y" "k" "E"),
       DIState.mk [("B", .abstract [(.sentinel, .factoryE "B"), (.user "k", .impl "E")])] [] 0) ∧
    createImplementation (Env.mk (fun _ => true) (fun _ => none) id) "B" "k" "Y" true .single
      (DIState.mk [("B", .abstract [(.sentinel, .factoryE "B")])] [] 0) =
      (some (.reservedConflict "B" "Y"),
       DIState.mk [("B", .abstract [(.sentinel, .factoryE "B")])] [] 0) :=
  ⟨(implementation_registration_errors plainEnv "B" "k" "Y" false .single emptyState).1
      (by decide),
   (implementation_registration_errors plainEnv "B" "k" "Y" false .single
      (DIState.mk [("B", .singleton none)] [] 0)).2.1 none (by decide),
   (implementation_registration_errors plainEnv "B" "k" "Y" false .single
      (DIState.mk [("B", .instSentinel)] [] 0)).2.2.1 (by decide),
   (implementation_registration_errors plainEnv "B" "k" "Y" true .single
      (DIState.mk [("B", .abstract [(.sentinel, .impl "D"), (.user "d", .impl "D")])] [] 0)).2.2.2.1
      [(.sentinel, .impl "D"), (.user "d", .impl "D")] "D" (by decide) (by decide) (by decide),
   (implementation_registration_errors plainEnv "B" "k" "Y" false .single
      (DIState.mk [("B", .abstract [(.sentinel, .factoryE "B"), (.user "k", .impl "E")])] [] 0)).2.2.2.2.1
      [(.sentinel, .factoryE "B"), (.user "k", .impl "E")] "E" (by decide) (by decide) (by decide),
   (implementation_registration_errors (Env.mk (fun _ => true) (fun _ => none) id) "B" "k" "Y"
      true .single
      (DIState.mk [("B", .abstract [(.sentinel, .factoryE "B")])] [] 0)).2.2.2.2.2
      [(.sentinel, .factoryE "B")] (by decide) (by decide) (by decide) (by decide) (by decide)⟩

/-! ## Lemmas about the string-annotation fallback -/

/-- A live type never matches the string comparisons of the fallback loop. -/
theorem findFallback_ty (env : Env) (i : String) :
    ∀ l : List (String × Record), findFallback env l (.ty i) = none := by
  intro l
  induction l with
  | nil => simp [findFallback]
  | cons hd tl ih =>
    obtain ⟨d0, r0⟩ := hd
    simp [findFallback, annMatches, ih]

/-- Soundness of the fallback loop: a hit is a registered identity whose
simplified trailing segment or full string form equals the request. -/
theorem findFallback_sound (env : Env) (s d : String) :
    ∀ l : List (String × Record), findFallback env l (.str s) = some d →
      (∃ r, (d, r) ∈ l) ∧ (s = simpleName env d ∨ s = env.strForm d) := by
  intro l
  induction l with
  | nil => simp [findFallback]
  | cons hd tl ih =>
    obtain ⟨d0, r0⟩ := hd
    by_cases hm : annMatches env (.str s) d0
    · intro h
      rw [findFallback, if_pos hm] at h
      obtain rfl : d0 = d := by simpa using h
      refine ⟨⟨r0, List.mem_cons_self _ _⟩, ?_⟩
      simpa [annMatches] using hm
    · intro h
      rw [findFallback, if_neg hm] at h
      obtain ⟨⟨r, hr⟩, ho⟩ := ih h
      exact ⟨⟨r, List.mem_cons_of_mem _ hr⟩, ho⟩

/-- Completeness of the fallback loop: a registered identity whose simplified
segment or full string form equals the request is found. -/
theorem findFallback_complete (env : Env) (s d : String) (r : Record) :
    ∀ l : List (String × Record), (d, r) ∈ l →
      (s = simpleName env d ∨ s = env.strForm d) →
      (findFallback env l (.str s)).isSome := by
  intro l hmem hmatch
  induction l with
  | nil => simp at hmem
  | cons hd tl ih =>
    obtain ⟨d0, r0⟩ := hd
    by_cases hm : annMatches env (.str s) d0
    · simp [findFallback, hm]
    · rcases List.mem_cons.mp hmem with heq | hmem'
      · obtain ⟨rfl, rfl⟩ := Prod.mk.injEq .. ▸ heq
        exact absurd (by simpa [annMatches] using hmatch) hm
      · rw [findFallback, if_neg hm]
        exact ih hmem'

/-- C9 corrected: resolution of a requested identity first tries a direct
match against the registered identities; a live type that is no direct match
never matches the fallback; a string request is matched by the fallback loop
exactly against the simplified trailing name segment and the full string form
of each registered identity; when a match exists resolution proceeds on the
matched identity; and when everything fails the error is UnresolvedDependency
naming the requested identity for a live-type request, but a host
AttributeError (raised while formatting the message) for a string request. -/
theorem dependency_matching_and_errors (env : Env) (fuel : Nat) (argName : String)
    (st : DIState) :
    (∀ i, (lookupA st.deps i).isSome → isDependencyPresent env st.deps (.ty i) = some i) ∧
    (∀ i, lookupA st.deps i = none → isDependencyPresent env st.deps (.ty i) = none) ∧
    (∀ s d, isDependencyPresent env st.deps (.str s) = some d →
      (∃ r, (d, r) ∈ st.deps) ∧ (s = simpleName env d ∨ s = env.strForm d)) ∧
    (∀ s d r, (d, r) ∈ st.deps → (s = simpleName env d ∨ s = env.strForm d) →
      (isDependencyPresent env st.deps (.str s)).isSome) ∧
    (∀ a real, isDependencyPresent env st.deps a = some real →
      injectArg env fuel argName (some a) st = resolveCore env fuel (.ident real) st) ∧
    (∀ i, isDependencyPresent env st.deps (.ty i) = none →
      injectArg env fuel argName (some (.ty i)) st =
        (.error (.unresolvedDependency argName i), st)) ∧
    (∀ s, isDependencyPresent env st.deps (.str s) = none →
      injectArg env fuel argName (some (.str s)) st = (.error .hostAttributeError, st)) := by
  refine ⟨?_, ?_, ?_, ?_, ?_, ?_, ?_⟩
  · intro i h
    simp [isDependencyPresent, h]
  · intro i h
    simp [isDependencyPresent, h, findFallback_ty]
  · intro s d h
    exact findFallback_sound env s d st.deps (by simpa [isDependencyPresent] using h)
  · intro s d r hmem hmatch
    simpa [isDependencyPresent] using findFallback_complete env s d r st.deps hmem hmatch
  · intro a real h
    simp [injectArg, h]
  · intro i h
    simp [injectArg, h]
  · intro s h
    simp [injectArg, h]

/-- An environment whose string forms mimic Python's `str` on a nested
class. -/
def nestedEnv : Env :=
  ⟨fun _ => false, fun _ => none, fun s => "<class 'mod.Outer." ++ s ++ "'>"⟩

/-- C9 counterexample: the simplified-segment fallback does find "M", but for
a string request matching nothing the failure is a host AttributeError
(from `annotation.__name__` in the message construction), not
UnresolvedDependency naming the identity. -/
theorem dependency_matching_cex :
    isDependencyPresent nestedEnv [("M", .singleton none)] (.str "M") = some "M" ∧
    isDependencyPresent nestedEnv [("M", .singleton none)] (.str "Nope") = none ∧
    injectArg nestedEnv 1 "dep" (some (.str "Nope")) (DIState.mk [("M", .singleton none)] [] 0) =
      (.error .hostAttributeError, DIState.mk [("M", .singleton none)] [] 0) := by
  decide

/-- C9 corrected witness: direct hit, string fallback hit by the trailing
segment and by the full form, and both failure shapes, at one concrete
registry. -/
theorem dependency_matching_and_errors_witness :
    isDependencyPresent nestedEnv [("M", .singleton none)] (.ty "M") = some "M" ∧
    (isDependencyPresent nestedEnv [("M", .singleton none)] (.str "M")).isSome ∧
    (isDependencyPresent nestedEnv [("M", .singleton none)]
      (.str "<class 'mod.Outer.M'>")).isSome ∧
    injectArg nestedEnv 1 "dep" (some (.ty "Nope")) (DIState.mk [("M", .singleton none)] [] 0) =
      (.error (.unresolvedDependency "dep" "Nope"), DIState.mk [("M", .singleton none)] [] 0) ∧
    injectArg nestedEnv 1 "dep" (some (.str "Nope")) (DIState.mk [("M", .singleton none)] [] 0) =
      (.error .hostAttributeError, DIState.mk [("M", .singleton none)] [] 0) := by
  have h := dependency_matching_and_errors nestedEnv 1 "dep" (DIState.mk [("M", .singleton none)] [] 0)
  exact ⟨h.1 "M" (by decide),
    h.2.2.2.1 "M" "M" (.singleton none) (by decide) (Or.inl (by decide)),
    h.2.2.2.1 "<class 'mod.Outer.M'>" "M" (.singleton none) (by decide) (Or.inr (by decide)),
    h.2.2.2.2.2.1 "Nope" (by decide),
    h.2.2.2.2.2.2 "Nope" (by decide)⟩

end HinteDI
